import Mathlib

/-!
# Verification of the gdutils shared-state HTTP request/response pipeline

This file is a shallow embedding of the step-definition library in
`context.go` (the `State` methods: prepared-request lifecycle, send paths,
and the JSON-node / header assertion operations), together with models of
its collaborators (the key-value cache, the `httpcache` key constants and
the `httpctx` last-response accessors, whose sources live outside the
embedded file and are modelled from the specification), and proofs of the
behavioural claims about them.

Conventions of the embedding:
* Go errors built with `fmt.Errorf` around sentinel errors are represented
  by the structured inductive `Err`, one constructor per `fmt.Errorf` site,
  carrying the interpolated data.
* Go `float64` JSON numbers are represented by the exact fraction type
  `GoFloat` (every IEEE double is a dyadic rational, so this loses
  nothing); the only numeric operations the code performs on them
  (`math.Modf` fractional-part test, `int(...)` truncation toward zero,
  equality) are exact on such fractions.
* Wall-clock time (`time.Now()`) is modelled by a logical clock in the
  state that advances at each observable event.
* Injected collaborators (template engine, deserializer, JSON path
  resolver, HTTP transport) are parameters of the embedded operations,
  mirroring their interface types.
* `Debugger.Print` only emits diagnostic text and never affects results,
  so debug output is not part of the modelled state.
-/

namespace Gdutils

instance {ε α : Type _} [DecidableEq ε] [DecidableEq α] :
    DecidableEq (Except ε α) := fun x y =>
  match x, y with
  | Except.ok a, Except.ok b =>
    if h : a = b then isTrue (by rw [h])
    else isFalse (fun hh => h (by cases hh; rfl))
  | Except.error a, Except.error b =>
    if h : a = b then isTrue (by rw [h])
    else isFalse (fun hh => h (by cases hh; rfl))
  | Except.ok _, Except.error _ => isFalse (fun hh => by cases hh)
  | Except.error _, Except.ok _ => isFalse (fun hh => by cases hh)

/-- An exact-value model of a Go `float64`: the fraction `num / den`
(`den` positive in all uses).  Every IEEE double is a dyadic rational, so
every `float64` the program can hold is one of these, and the operations
the embedded code performs on doubles (fractional-part test, truncation,
equality) are computed exactly below. -/
structure GoFloat where
  num : Int
  den : Nat
deriving DecidableEq, Repr

/-- Value equality of two exact fractions, by cross multiplication (the
model of Go `==` / `!=` on `float64`). -/
def GoFloat.eqv (a b : GoFloat) : Bool :=
  a.num * (b.den : Int) = b.num * (a.den : Int)

/-- Embedding of the `float64` value `0`. -/
def GoFloat.zero : GoFloat := { num := 0, den := 1 }

/-- A dynamically-typed value as produced by the JSON path resolver and
inspected through `reflect` in `context.go`.  Constructors follow the
`reflect.Kind` groups the code distinguishes: untyped/typed nil, string,
the integer kinds (`Int*`/`Uint*`, collapsed since the code treats them
alike), `Float64`, `Float32`, bool, map and slice.  Map entries and slice
elements are never inspected by the embedded code (only the slice length
is, via `reflect.Value.Len`), so the payloads carry exactly what the code
observes. -/
inductive GoValue
  | vNil
  | vString (s : String)
  | vInt (n : Int)
  | vFloat64 (f : GoFloat)
  | vFloat32 (f : GoFloat)
  | vBool (b : Bool)
  | vMap
  | vSlice (len : Nat)
deriving DecidableEq, Repr

/-- HTTP request as the code observes it: method, URL, headers and body
(`req.Body`, replaced wholesale by `ISetFollowingBodyForPreparedRequest`). -/
structure HttpRequest where
  method : String
  url : String
  headers : List (String × String)
  body : Option String
deriving DecidableEq, Repr

/-- HTTP response as the code observes it: status code, headers, and the
buffered body (re-readable, per the last-response contract). -/
structure HttpResponse where
  statusCode : Int
  headers : List (String × String)
  body : String
deriving DecidableEq, Repr

/-- Values stored in the cache by the embedded operations. -/
inductive CacheValue
  | timeVal (t : Nat)
  | request (r : HttpRequest)
  | response (r : HttpResponse)
  | str (s : String)
  | intVal (n : Int)
  | floatVal (f : GoFloat)
  | node (v : GoValue)
deriving DecidableEq, Repr

/-- Structured rendering of the error values `context.go` builds with
`fmt.Errorf` around its sentinel errors (`ErrGdutils`, `ErrQJSON`,
`ErrHTTPReqRes`, `ErrPreservedData`, `ErrJson`): one constructor per
`fmt.Errorf` site that the claims discriminate, carrying the interpolated
data of that site. -/
inductive Err
  | httpCtx (msg : String)
  | template (msg : String)
  | json (msg : String)
  | httpReqRes (msg : String)
  | qjson (expr msg : String)
  | gdutilsCache (msg : String)
  | preservedData (cacheKey : String)
  | parseHeaders (headers msg : String)
  | nodeShouldNotBeType (expr goType : String)
  | nodeShouldBeType (expr goType : String)
  | unknownType (goType : String)
  | sliceWrongLength (expr : String) (actual : Nat) (expected : Int)
  | notSlice (expr : String)
  | expectedNodeType (expr dataType : String)
  | couldNotConvert (expr value dataType : String)
  | stringMismatch (expr actual expected : String)
  | intMismatch (expr : String) (actual expected : Int)
  | floatMismatch (expr : String) (actual expected : GoFloat)
  | boolMismatch (expr : String) (actual expected : Bool)
  | headerNotFound (name : String)
  | headerWrongValue (name expected actual : String)
  | gdutilsTemplate (msg : String)
deriving DecidableEq, Repr

/-- Returns `true` exactly on a successful (`nil`-error) outcome of an operation. -/
def isSuccess (r : Except Err Unit) : Bool :=
  match r with
  | Except.ok _ => true
  | Except.error _ => false

/-! ## Cache (modelled from the spec) -/

/-- The cache: string keys to `CacheValue`s.  Modelled from the spec:
`pkg/cache` (outside the embedded source) is a concurrency-safe map with
`Save` overwriting unconditionally and `GetSaved` failing on a missing
key; a write-shadowing association list realises that observable
contract for the sequential operations embedded here. -/
abbrev Cache := List (String × CacheValue)

/-- First-match lookup; with write-shadowing saves this is last-write-wins. -/
def cacheLookup (c : Cache) (key : String) : Option CacheValue :=
  (c.find? (fun p => p.1 = key)).map (fun p => p.2)

/-- Modelled from the spec: `Cache.Save` unconditionally inserts/overwrites. -/
def cacheSave (c : Cache) (key : String) (v : CacheValue) : Cache :=
  (key, v) :: c

/-- Modelled from the spec: `Cache.GetSaved` returns the value under the key
or fails with a not-found error naming the key. -/
def cacheGetSaved (c : Cache) (key : String) : Except String CacheValue :=
  match cacheLookup c key with
  | some v => Except.ok v
  | none => Except.error ("could not find key " ++ key)

/-! ## httpcache key constants (modelled from the spec) -/

/-- Modelled from the spec: the dedicated cache key under which every send
path stores the instant immediately before dispatch
(`httpcache.LastHTTPRequestTimestamp`, defined outside the embedded
source). -/
def lastHTTPRequestTimestamp : String := "lastHTTPRequestTimestamp"

/-- Modelled from the spec: the dedicated cache key under which every send
path stores the instant immediately after receipt
(`httpcache.LastHTTPResponseTimestamp`). -/
def lastHTTPResponseTimestamp : String := "lastHTTPResponseTimestamp"

/-- Modelled from the spec: the dedicated cache key holding the single
current-response slot (`httpcache.LastHTTPResponseCacheKey`). -/
def lastHTTPResponseCacheKey : String := "lastHTTPResponse"

/-! ## State -/

/-- The mutable state threaded through the operations: the cache, a logical
clock standing for wall-clock reads, and a log of transport dispatches
(each tagged with the clock value at dispatch), which makes "was a request
sent, and when" observable in theorems. -/
structure State where
  cache : Cache
  clock : Nat
  transportLog : List (Nat × HttpRequest)
deriving DecidableEq

/-! ## httpctx last-response accessors (modelled from the spec) -/

/-- Modelled from the spec: `HttpContext.GetLastResponse` (in `pkg/httpctx`,
outside the embedded source) yields the most recent response from the
current-response slot, failing with a no-prior-response error when none is
stored. -/
def getLastResponse (st : State) : Except String HttpResponse :=
  match cacheLookup st.cache lastHTTPResponseCacheKey with
  | some (CacheValue.response r) => Except.ok r
  | _ => Except.error "no last response stored"

/-- Modelled from the spec: `HttpContext.GetLastResponseBody` returns the
buffered (idempotently re-readable) body of the last response. -/
def getLastResponseBody (st : State) : Except String String :=
  match getLastResponse st with
  | Except.ok r => Except.ok r.body
  | Except.error e => Except.error e

/-! ## Go standard-library models -/

/-- Truncation toward zero, the semantics of Go's `int(f)` conversion from
`float64` (`Int.tdiv` is division truncating toward zero). -/
def goTrunc (f : GoFloat) : Int :=
  Int.tdiv f.num (f.den : Int)

/-- Model of Go's `math.Modf`: integer part (truncated toward zero) and
fractional part, both exact; the code only ever tests the fractional part
against 0 (via `GoFloat.eqv` with `GoFloat.zero`). -/
def modf (f : GoFloat) : GoFloat × GoFloat :=
  ({ num := goTrunc f, den := 1 },
   { num := f.num - goTrunc f * (f.den : Int), den := f.den })

/-- Model of Go's `strconv.Atoi`: optional sign, decimal digits only,
64-bit range check. -/
def atoi (s : String) : Except String Int :=
  let p : Int × List Char :=
    match s.data with
    | '+' :: cs => (1, cs)
    | '-' :: cs => (-1, cs)
    | cs => (1, cs)
  if p.2.isEmpty then Except.error "invalid syntax"
  else if p.2.all Char.isDigit then
    let n : Nat := p.2.foldl (fun acc c => acc * 10 + (c.toNat - '0'.toNat)) 0
    let v : Int := p.1 * n
    if v < -(2 ^ 63) ∨ 2 ^ 63 - 1 < v then Except.error "value out of range"
    else Except.ok v
  else Except.error "invalid syntax"

/-- Request/response header collection, observed through the `net/http`
`Header.Get`/`Header.Set` operations modelled below. -/
abbrev Headers := List (String × String)

/-- Model of `net/http` `Header.Get`: the value stored under the name, or
the empty string when the header is not present (which is why a
present-but-empty header is indistinguishable from an absent one). -/
def headerGet (h : Headers) (name : String) : String :=
  match h.find? (fun p => p.1 = name) with
  | some p => p.2
  | none => ""

/-- Model of `net/http` `Header.Set`: replaces any existing values stored
under the name with the single given value. -/
def headerSet (h : Headers) (name value : String) : Headers :=
  h.filter (fun p => ¬(p.1 = name)) ++ [(name, value)]

/-! ## Embedded operations from `context.go` -/

/-- Embedding of `getPreparedRequest` (context.go): reads the value stored under
`cacheKey` back from the cache; a missing key surfaces the cache error
wrapped in `ErrGdutils`, a value that is not a request object fails with
the `ErrPreservedData` data-integrity error. -/
def getPreparedRequest (c : Cache) (cacheKey : String) : Except Err HttpRequest :=
  match cacheGetSaved c cacheKey with
  | Except.error e => Except.error (Err.gdutilsCache e)
  | Except.ok v =>
    match v with
    | CacheValue.request req => Except.ok req
    | _ => Except.error (Err.preservedData cacheKey)

/-- Embedding of `ISendRequest` (context.go): reads the prepared request back by key,
stamps the attempt time into the cache, dispatches through the injected
transport, and on success stamps the response time and stores the response
in the current-response slot.  The pair returned is the state after the
call together with the Go error result (the state is returned in both
outcomes because the Go method mutates in place before it can fail). -/
def ISendRequest (transport : HttpRequest → Except String HttpResponse)
    (st : State) (cacheKey : String) : State × Except Err Unit :=
  match getPreparedRequest st.cache cacheKey with
  | Except.error e => (st, Except.error e)
  | Except.ok req =>
    let st1 : State := { st with
      cache := cacheSave st.cache lastHTTPRequestTimestamp (CacheValue.timeVal st.clock)
      clock := st.clock + 1 }
    let st2 : State := { st1 with
      transportLog := st1.transportLog ++ [(st1.clock, req)]
      clock := st1.clock + 1 }
    match transport req with
    | Except.error e => (st2, Except.error (Err.httpReqRes e))
    | Except.ok resp =>
      let st3 : State := { st2 with
        cache := cacheSave st2.cache lastHTTPResponseTimestamp (CacheValue.timeVal st2.clock)
        clock := st2.clock + 1 }
      let st4 : State := { st3 with
        cache := cacheSave st3.cache lastHTTPResponseCacheKey (CacheValue.response resp) }
      (st4, Except.ok ())

/-- Embedding of the `body`/`headers` envelope deserialized by
`ISendRequestToWithBodyAndHeaders` (`BodyHeaders` in context.go).  The Go
`Headers` field is a `map[string]string`; an association list models it
(the deserializer yields one entry per name). -/
structure BodyHeaders where
  body : GoValue
  headers : List (String × String)

/-- Embedding of `ISendRequestToWithBodyAndHeaders` (context.go): substitutes templates
into the body/headers envelope and the URL, deserializes the envelope,
marshals the body to JSON, builds the request, sets the envelope headers
on it, then performs the same timestamped dispatch as `ISendRequest`
without caching the request.  `tmplReplace`, `deserialize`, `jsonMarshal`
and `mkRequest` stand for the injected template engine, the injected
deserializer, `json.Marshal` and `http.NewRequest`. -/
def ISendRequestToWithBodyAndHeaders
    (tmplReplace : String → Cache → Except String String)
    (deserialize : String → Except String BodyHeaders)
    (jsonMarshal : GoValue → Except String String)
    (mkRequest : String → String → String → Except String HttpRequest)
    (transport : HttpRequest → Except String HttpResponse)
    (st : State) (method urlTemplate bodyTemplate : String) :
    State × Except Err Unit :=
  match tmplReplace bodyTemplate st.cache with
  | Except.error e => (st, Except.error (Err.template e))
  | Except.ok input =>
  match tmplReplace urlTemplate st.cache with
  | Except.error e => (st, Except.error (Err.template e))
  | Except.ok url =>
  match deserialize input with
  | Except.error e => (st, Except.error (Err.json e))
  | Except.ok bodyAndHeaders =>
  match jsonMarshal bodyAndHeaders.body with
  | Except.error e => (st, Except.error (Err.json e))
  | Except.ok reqBody =>
  match mkRequest method url reqBody with
  | Except.error e => (st, Except.error (Err.httpReqRes e))
  | Except.ok req0 =>
    let req : HttpRequest := { req0 with
      headers := bodyAndHeaders.headers.foldl
        (fun h p => headerSet h p.1 p.2) req0.headers }
    let st1 : State := { st with
      cache := cacheSave st.cache lastHTTPRequestTimestamp (CacheValue.timeVal st.clock)
      clock := st.clock + 1 }
    let st2 : State := { st1 with
      transportLog := st1.transportLog ++ [(st1.clock, req)]
      clock := st1.clock + 1 }
    match transport req with
    | Except.error e => (st2, Except.error (Err.httpReqRes e))
    | Except.ok resp =>
      let st3 : State := { st2 with
        cache := cacheSave st2.cache lastHTTPResponseTimestamp (CacheValue.timeVal st2.clock)
        clock := st2.clock + 1 }
      let st4 : State := { st3 with
        cache := cacheSave st3.cache lastHTTPResponseCacheKey (CacheValue.response resp) }
      (st4, Except.ok ())

/-- Embedding of `ISetFollowingHeadersForPreparedRequest` (context.go): substitutes
templates into the header document, deserializes it into a name→value map,
reads the prepared request back by key, applies `Header.Set` per entry and
re-stores the request under the same key. -/
def ISetFollowingHeadersForPreparedRequest
    (tmplReplace : String → Cache → Except String String)
    (deserializeHeaders : String → Except String (List (String × String)))
    (st : State) (cacheKey headersTemplate : String) :
    State × Except Err Unit :=
  match tmplReplace headersTemplate st.cache with
  | Except.error e => (st, Except.error (Err.template e))
  | Except.ok headers =>
  match deserializeHeaders headers with
  | Except.error e => (st, Except.error (Err.parseHeaders headers e))
  | Except.ok headersMap =>
  match getPreparedRequest st.cache cacheKey with
  | Except.error e => (st, Except.error e)
  | Except.ok req =>
    let req2 : HttpRequest := { req with
      headers := headersMap.foldl (fun h p => headerSet h p.1 p.2) req.headers }
    ({ st with cache := cacheSave st.cache cacheKey (CacheValue.request req2) },
     Except.ok ())

/-- Embedding of `ISetFollowingBodyForPreparedRequest` (context.go): substitutes
templates into the body, reads the prepared request back by key, replaces
its body wholesale (`req.Body = NopCloser(...)`) and re-stores it under
the same key. -/
def ISetFollowingBodyForPreparedRequest
    (tmplReplace : String → Cache → Except String String)
    (st : State) (cacheKey bodyTemplate : String) :
    State × Except Err Unit :=
  match tmplReplace bodyTemplate st.cache with
  | Except.error e => (st, Except.error (Err.template e))
  | Except.ok body =>
  match getPreparedRequest st.cache cacheKey with
  | Except.error e => (st, Except.error e)
  | Except.ok req =>
    let req2 : HttpRequest := { req with body := some body }
    ({ st with cache := cacheSave st.cache cacheKey (CacheValue.request req2) },
     Except.ok ())

/-- Model of Go's `strconv.ParseBool`: the twelve accepted literals. -/
def parseBool (s : String) : Except String Bool :=
  if s = "1" ∨ s = "t" ∨ s = "T" ∨ s = "TRUE" ∨ s = "true" ∨ s = "True" then
    Except.ok true
  else if s = "0" ∨ s = "f" ∨ s = "F" ∨ s = "FALSE" ∨ s = "false" ∨ s = "False" then
    Except.ok false
  else Except.error "invalid syntax"

/-- Embedding of `TheJSONNodeShouldNotBe` (context.go): resolves the node from the last
response body and checks its `reflect.Kind` against the tag, mirroring the
source switch case by case; the classification error is
`nodeShouldNotBeType`, an unknown tag is `unknownType`.  A `float64` value
whose `math.Modf` fractional part is zero counts as `int`; a float kind
with zero fractional part does not count as `float`. -/
def TheJSONNodeShouldNotBe (resolve : String → String → Except String GoValue)
    (st : State) (expr goType : String) : Except Err Unit :=
  match getLastResponseBody st with
  | Except.error e => Except.error (Err.httpCtx e)
  | Except.ok body =>
  match resolve expr body with
  | Except.error e => Except.error (Err.qjson expr e)
  | Except.ok iNodeVal =>
  let errInvalidType := Err.nodeShouldNotBeType expr goType
  match goType with
  | "nil" =>
    match iNodeVal with
    | GoValue.vNil => Except.error errInvalidType
    | _ => Except.ok ()
  | "string" =>
    match iNodeVal with
    | GoValue.vString _ => Except.error errInvalidType
    | _ => Except.ok ()
  | "int" =>
    match iNodeVal with
    | GoValue.vInt _ => Except.error errInvalidType
    | GoValue.vFloat64 f =>
      if GoFloat.eqv (modf f).2 GoFloat.zero then Except.error errInvalidType
      else Except.ok ()
    | _ => Except.ok ()
  | "float" =>
    match iNodeVal with
    | GoValue.vFloat64 f =>
      if GoFloat.eqv (modf f).2 GoFloat.zero then Except.ok ()
      else Except.error errInvalidType
    | GoValue.vFloat32 f =>
      if GoFloat.eqv (modf f).2 GoFloat.zero then Except.ok ()
      else Except.error errInvalidType
    | _ => Except.ok ()
  | "bool" =>
    match iNodeVal with
    | GoValue.vBool _ => Except.error errInvalidType
    | _ => Except.ok ()
  | "map" =>
    match iNodeVal with
    | GoValue.vMap => Except.error errInvalidType
    | _ => Except.ok ()
  | "slice" =>
    match iNodeVal with
    | GoValue.vSlice _ => Except.error errInvalidType
    | _ => Except.ok ()
  | _ => Except.error (Err.unknownType goType)

/-- Embedding of `TheJSONNodeShouldBe` (context.go): for a supported tag it is the
literal negation of `TheJSONNodeShouldNotBe` (success becomes the
`nodeShouldBeType` assertion failure and any error becomes success); an
unknown tag is rejected up front with `unknownType`. -/
def TheJSONNodeShouldBe (resolve : String → String → Except String GoValue)
    (st : State) (expr goType : String) : Except Err Unit :=
  let errInvalidType := Err.nodeShouldBeType expr goType
  match goType with
  | "nil" | "string" | "int" | "float" | "bool" | "map" | "slice" =>
    match TheJSONNodeShouldNotBe resolve st expr goType with
    | Except.ok _ => Except.error errInvalidType
    | Except.error _ => Except.ok ()
  | _ => Except.error (Err.unknownType goType)

/-- Embedding of `TheJSONNodeShouldBeSliceOfLength` (context.go): resolves the node; a
slice of the wrong length fails with `sliceWrongLength`, a non-slice value
fails with the distinct `notSlice` error. -/
def TheJSONNodeShouldBeSliceOfLength
    (resolve : String → String → Except String GoValue)
    (st : State) (expr : String) (length : Int) : Except Err Unit :=
  match getLastResponseBody st with
  | Except.error e => Except.error (Err.httpCtx e)
  | Except.ok body =>
  match resolve expr body with
  | Except.error e => Except.error (Err.qjson expr e)
  | Except.ok iValue =>
  match iValue with
  | GoValue.vSlice len =>
    if ¬((len : Int) = length) then
      Except.error (Err.sliceWrongLength expr len length)
    else Except.ok ()
  | _ => Except.error (Err.notSlice expr)

/-- Embedding of `TheJSONNodeShouldBeOfValue` (context.go): substitutes templates into
the expected value, resolves the node and compares per `dataType`.  The
`int` case asserts the node to `float64`, truncates it toward zero with
`int(...)` and compares with the `Atoi` of the expected string.  Note the
source switch has no default case: a `dataType` outside
`string`/`int`/`float`/`bool` falls through to `return nil`.
`parseFloat` stands for `strconv.ParseFloat(..., 64)`. -/
def TheJSONNodeShouldBeOfValue
    (tmplReplace : String → Cache → Except String String)
    (resolve : String → String → Except String GoValue)
    (parseFloat : String → Except String GoFloat)
    (st : State) (expr dataType dataValue : String) : Except Err Unit :=
  match tmplReplace dataValue st.cache with
  | Except.error e => Except.error (Err.template e)
  | Except.ok nodeValueReplaced =>
  match getLastResponseBody st with
  | Except.error e => Except.error (Err.httpCtx e)
  | Except.ok body =>
  match resolve expr body with
  | Except.error e => Except.error (Err.qjson expr e)
  | Except.ok iValue =>
  match dataType with
  | "string" =>
    match iValue with
    | GoValue.vString strVal =>
      if ¬(strVal = nodeValueReplaced) then
        Except.error (Err.stringMismatch expr strVal nodeValueReplaced)
      else Except.ok ()
    | _ => Except.error (Err.expectedNodeType expr dataType)
  | "int" =>
    match iValue with
    | GoValue.vFloat64 floatVal =>
      let intVal := goTrunc floatVal
      match atoi nodeValueReplaced with
      | Except.error _ =>
        Except.error (Err.couldNotConvert expr nodeValueReplaced "int")
      | Except.ok intNodeValue =>
        if ¬(intVal = intNodeValue) then
          Except.error (Err.intMismatch expr intVal intNodeValue)
        else Except.ok ()
    | _ => Except.error (Err.expectedNodeType expr dataType)
  | "float" =>
    match iValue with
    | GoValue.vFloat64 floatVal =>
      match parseFloat nodeValueReplaced with
      | Except.error _ =>
        Except.error (Err.couldNotConvert expr nodeValueReplaced "float64")
      | Except.ok floatNodeValue =>
        if ¬(GoFloat.eqv floatVal floatNodeValue) then
          Except.error (Err.floatMismatch expr floatVal floatNodeValue)
        else Except.ok ()
    | _ => Except.error (Err.expectedNodeType expr dataType)
  | "bool" =>
    match iValue with
    | GoValue.vBool boolVal =>
      match parseBool nodeValueReplaced with
      | Except.error _ =>
        Except.error (Err.couldNotConvert expr nodeValueReplaced "bool")
      | Except.ok boolNodeValue =>
        if ¬(boolVal = boolNodeValue) then
          Except.error (Err.boolMismatch expr boolVal boolNodeValue)
        else Except.ok ()
    | _ => Except.error (Err.expectedNodeType expr dataType)
  | _ => Except.ok ()

/-- Embedding of `TheResponseShouldHaveHeaderOfValue` (context.go): reads the last
response, fetches the header through `Header.Get` (empty string when
absent), substitutes templates into the expected value; empty actual and
empty expected short-circuit to the header-not-found failure, equality
succeeds, anything else is the wrong-value failure. -/
def TheResponseShouldHaveHeaderOfValue
    (tmplReplace : String → Cache → Except String String)
    (st : State) (name valueTemplate : String) : Except Err Unit :=
  match getLastResponse st with
  | Except.error e => Except.error (Err.httpReqRes e)
  | Except.ok lastResp =>
  let header := headerGet lastResp.headers name
  match tmplReplace valueTemplate st.cache with
  | Except.error e => Except.error (Err.gdutilsTemplate e)
  | Except.ok value =>
  if header = "" ∧ value = "" then Except.error (Err.headerNotFound name)
  else if header = value then Except.ok ()
  else Except.error (Err.headerWrongValue name value header)

/-! ## Concrete fixtures used by witness and counterexample theorems -/

/-- A concrete last response. -/
def wResp : HttpResponse :=
  { statusCode := 200, headers := [("X-Test", "abc")], body := "jsonBody" }

/-- A concrete prepared request. -/
def wReq : HttpRequest :=
  { method := "GET", url := "http://example.com",
    headers := [("A", "1"), ("B", "2")], body := some "old" }

/-- A state with a stored last response. -/
def wStateResp : State :=
  { cache := [(lastHTTPResponseCacheKey, CacheValue.response wResp)],
    clock := 0, transportLog := [] }

/-- A state with a prepared request under `"myReq"` and a stored last
response. -/
def wStateReq : State :=
  { cache := [("myReq", CacheValue.request wReq),
              (lastHTTPResponseCacheKey, CacheValue.response wResp)],
    clock := 0, transportLog := [] }

/-- A template engine that finds no placeholder (identity). -/
def wTmplId : String → Cache → Except String String :=
  fun s _ => Except.ok s

/-- A path resolver that resolves every expression to the given value. -/
def wResolveConst (v : GoValue) : String → String → Except String GoValue :=
  fun _ _ => Except.ok v

/-- A `ParseFloat` stand-in (never consulted by the witnesses). -/
def wParseFloat : String → Except String GoFloat :=
  fun _ => Except.error "unused"

/-- A transport whose dispatch always fails. -/
def wFailTransport : HttpRequest → Except String HttpResponse :=
  fun _ => Except.error "connection refused"

/-- A transport whose dispatch always succeeds with `wResp`. -/
def wOkTransport : HttpRequest → Except String HttpResponse :=
  fun _ => Except.ok wResp

/-- A deserializer producing a fixed body/headers envelope. -/
def wDeserialize : String → Except String BodyHeaders :=
  fun _ => Except.ok { body := GoValue.vNil, headers := [("H", "1")] }

/-- A `json.Marshal` stand-in producing `"null"`. -/
def wMarshal : GoValue → Except String String :=
  fun _ => Except.ok "null"

/-- An `http.NewRequest` stand-in building a header-less request. -/
def wMkRequest : String → String → String → Except String HttpRequest :=
  fun m u b => Except.ok { method := m, url := u, headers := [], body := some b }

/-- Returns `true` exactly when a cache value is a request object. -/
def isRequestValue : CacheValue → Bool
  | CacheValue.request _ => true
  | _ => false

/-! ## Helper lemmas about the cache and header models -/

theorem cacheLookup_save_self (c : Cache) (k : String) (v : CacheValue) :
    cacheLookup (cacheSave c k v) k = some v := by
  simp [cacheLookup, cacheSave, List.find?]

theorem cacheLookup_save_other (c : Cache) (k : String) (v : CacheValue)
    (k2 : String) (h : ¬(k2 = k)) :
    cacheLookup (cacheSave c k v) k2 = cacheLookup c k2 := by
  simp only [cacheLookup, cacheSave, List.find?]
  have hk : ¬(k = k2) := fun hh => h hh.symm
  simp [hk]

theorem headerGet_cons (p : String × String) (l : Headers) (nm : String) :
    headerGet (p :: l) nm = if p.1 = nm then p.2 else headerGet l nm := by
  by_cases hp : p.1 = nm <;> simp [headerGet, List.find?, hp]

theorem headerGet_headerSet (h : Headers) (a b nm : String) :
    headerGet (headerSet h a b) nm = if a = nm then b else headerGet h nm := by
  induction h with
  | nil =>
    by_cases hab : a = nm <;> simp [headerGet, headerSet, List.find?, hab]
  | cons p rest ih =>
    simp only [headerSet, List.filter_cons] at ih ⊢
    by_cases hp : p.1 = a
    · simp only [hp, decide_True, not_true_eq_false, decide_False, if_false,
        Bool.false_eq_true, ite_false]
      rw [ih, headerGet_cons]
      by_cases hab : a = nm
      · simp [hab]
      · have hpn : ¬(p.1 = nm) := by rw [hp]; exact hab
        simp [hab, hpn]
    · simp only [hp, decide_False, not_false_eq_true, decide_True, if_true,
        ite_true]
      rw [List.cons_append, headerGet_cons, ih, headerGet_cons]
      by_cases hpn : p.1 = nm
      · have hab : ¬(a = nm) := by
          intro hh; exact hp (by rw [hpn, hh])
        simp [hpn, hab]
      · simp [hpn]

theorem headerGet_foldl_headerSet (m : List (String × String)) (h0 : Headers)
    (nm : String) :
    headerGet (m.foldl (fun h p => headerSet h p.1 p.2) h0) nm
      = m.foldl (fun acc p => if p.1 = nm then p.2 else acc) (headerGet h0 nm) := by
  induction m generalizing h0 with
  | nil => simp
  | cons p rest ih =>
    simp only [List.foldl_cons]
    rw [ih, headerGet_headerSet]

/-! ## C1 -/

/-- Claim C1: for every JSON path expression that resolves to a value in the
last response body and every supported type tag, exactly one of
`TheJSONNodeShouldBe(expr, tag)` and `TheJSONNodeShouldNotBe(expr, tag)`
succeeds: the former succeeds if and only if the latter fails, because the
former is derived by negating the latter's single classification. -/
theorem shouldBe_iff_not_shouldNotBe
    (resolve : String → String → Except String GoValue)
    (st : State) (expr goType body : String) (v : GoValue)
    (hbody : getLastResponseBody st = Except.ok body)
    (hres : resolve expr body = Except.ok v)
    (htag : goType = "nil" ∨ goType = "string" ∨ goType = "int"
      ∨ goType = "float" ∨ goType = "bool" ∨ goType = "map"
      ∨ goType = "slice") :
    isSuccess (TheJSONNodeShouldBe resolve st expr goType)
      = !(isSuccess (TheJSONNodeShouldNotBe resolve st expr goType)) := by
  have hflip : TheJSONNodeShouldBe resolve st expr goType =
      (match TheJSONNodeShouldNotBe resolve st expr goType with
       | Except.ok _ => Except.error (Err.nodeShouldBeType expr goType)
       | Except.error _ => Except.ok ()) := by
    rcases htag with rfl | rfl | rfl | rfl | rfl | rfl | rfl <;> rfl
  rw [hflip]
  cases hr : TheJSONNodeShouldNotBe resolve st expr goType <;> simp [isSuccess]

/-- Witness for C1 at tag `"int"` and resolved value `5.0`. -/
theorem shouldBe_iff_not_shouldNotBe_witness :
    (getLastResponseBody wStateResp = Except.ok "jsonBody"
      ∧ wResolveConst (GoValue.vFloat64 { num := 5, den := 1 }) "root.x" "jsonBody"
          = Except.ok (GoValue.vFloat64 { num := 5, den := 1 })
      ∧ (("int" : String) = "nil" ∨ ("int" : String) = "string"
          ∨ ("int" : String) = "int" ∨ ("int" : String) = "float"
          ∨ ("int" : String) = "bool" ∨ ("int" : String) = "map"
          ∨ ("int" : String) = "slice"))
    ∧ isSuccess (TheJSONNodeShouldBe
          (wResolveConst (GoValue.vFloat64 { num := 5, den := 1 }))
          wStateResp "root.x" "int")
        = !(isSuccess (TheJSONNodeShouldNotBe
          (wResolveConst (GoValue.vFloat64 { num := 5, den := 1 }))
          wStateResp "root.x" "int")) :=
  ⟨⟨by decide, by decide, by decide⟩,
   shouldBe_iff_not_shouldNotBe
     (wResolveConst (GoValue.vFloat64 { num := 5, den := 1 }))
     wStateResp "root.x" "int" "jsonBody" (GoValue.vFloat64 { num := 5, den := 1 })
     (by decide) (by decide) (by decide)⟩

/-! ## C2 -/

/-- Claim C2: a resolved JSON numeric value decoded as `float64` classifies
as `int` exactly when its `math.Modf` fractional part is zero, and as
`float` exactly when it is non-zero: `TheJSONNodeShouldBe(expr, "int")`
succeeds and `TheJSONNodeShouldBe(expr, "float")` fails on a zero
fractional part, and conversely on a non-zero one. -/
theorem numeric_int_float_classification
    (resolve : String → String → Except String GoValue)
    (st : State) (expr body : String) (q : GoFloat)
    (hbody : getLastResponseBody st = Except.ok body)
    (hres : resolve expr body = Except.ok (GoValue.vFloat64 q)) :
    isSuccess (TheJSONNodeShouldBe resolve st expr "int")
        = GoFloat.eqv (modf q).2 GoFloat.zero
    ∧ isSuccess (TheJSONNodeShouldBe resolve st expr "float")
        = !(GoFloat.eqv (modf q).2 GoFloat.zero) := by
  constructor <;>
    simp only [TheJSONNodeShouldBe, TheJSONNodeShouldNotBe, hbody, hres] <;>
    cases hq : GoFloat.eqv (modf q).2 GoFloat.zero <;>
    simp [hq, isSuccess]

/-- Witness for C2 at the value `5.5` (fractional part `1/2`). -/
theorem numeric_int_float_classification_witness :
    (getLastResponseBody wStateResp = Except.ok "jsonBody"
      ∧ wResolveConst (GoValue.vFloat64 { num := 11, den := 2 }) "root.x" "jsonBody"
          = Except.ok (GoValue.vFloat64 { num := 11, den := 2 }))
    ∧ (isSuccess (TheJSONNodeShouldBe
          (wResolveConst (GoValue.vFloat64 { num := 11, den := 2 }))
          wStateResp "root.x" "int")
        = GoFloat.eqv (modf { num := 11, den := 2 }).2 GoFloat.zero
      ∧ isSuccess (TheJSONNodeShouldBe
          (wResolveConst (GoValue.vFloat64 { num := 11, den := 2 }))
          wStateResp "root.x" "float")
        = !(GoFloat.eqv (modf { num := 11, den := 2 }).2 GoFloat.zero)) :=
  ⟨⟨by decide, by decide⟩,
   numeric_int_float_classification
     (wResolveConst (GoValue.vFloat64 { num := 11, den := 2 }))
     wStateResp "root.x" "jsonBody" { num := 11, den := 2 }
     (by decide) (by decide)⟩

/-! ## C5 -/

/-- Claim C5 is false as stated: `TheJSONNodeShouldBeOfValue` does not reject
an unsupported type tag.  Its switch has no default case, so the unknown
tag `"frog"` (with a resolvable node) is silently accepted as success
instead of failing with an unsupported-type error. -/
theorem unsupported_tag_counterexample :
    TheJSONNodeShouldBeOfValue wTmplId
      (wResolveConst (GoValue.vFloat64 { num := 5, den := 1 })) wParseFloat
      wStateResp "root.x" "frog" "zzz" = Except.ok () := by decide

/-- Claim C5 (amended): `TheJSONNodeShouldBe` and `TheJSONNodeShouldNotBe`
reject a type tag outside the supported set with the unsupported-type
error, which is distinct from their assertion-failure errors; but
`TheJSONNodeShouldBeOfValue` silently accepts an unknown tag as success
(template substitution, body fetch and path resolution succeeding). -/
theorem unsupported_tag_handling
    (resolve : String → String → Except String GoValue)
    (tmplReplace : String → Cache → Except String String)
    (parseFloat : String → Except String GoFloat)
    (st : State) (expr goType dataValue body replaced : String) (v : GoValue)
    (htag : ¬(goType = "nil" ∨ goType = "string" ∨ goType = "int"
      ∨ goType = "float" ∨ goType = "bool" ∨ goType = "map"
      ∨ goType = "slice"))
    (hbody : getLastResponseBody st = Except.ok body)
    (hres : resolve expr body = Except.ok v)
    (htmpl : tmplReplace dataValue st.cache = Except.ok replaced) :
    TheJSONNodeShouldBe resolve st expr goType
        = Except.error (Err.unknownType goType)
    ∧ TheJSONNodeShouldNotBe resolve st expr goType
        = Except.error (Err.unknownType goType)
    ∧ ¬(Err.unknownType goType = Err.nodeShouldBeType expr goType)
    ∧ ¬(Err.unknownType goType = Err.nodeShouldNotBeType expr goType)
    ∧ TheJSONNodeShouldBeOfValue tmplReplace resolve parseFloat st
        expr goType dataValue = Except.ok () := by
  push_neg at htag
  obtain ⟨h1, h2, h3, h4, h5, h6, h7⟩ := htag
  refine ⟨?_, ?_, by simp, by simp, ?_⟩
  · simp [TheJSONNodeShouldBe, h1, h2, h3, h4, h5, h6, h7]
  · simp [TheJSONNodeShouldNotBe, hbody, hres, h1, h2, h3, h4, h5, h6, h7]
  · simp [TheJSONNodeShouldBeOfValue, htmpl, hbody, hres, h2, h3, h4, h5]

/-- Witness for the amended C5 at the tag `"frog"`. -/
theorem unsupported_tag_handling_witness :
    (¬((("frog" : String)) = "nil" ∨ (("frog" : String)) = "string"
        ∨ (("frog" : String)) = "int" ∨ (("frog" : String)) = "float"
        ∨ (("frog" : String)) = "bool" ∨ (("frog" : String)) = "map"
        ∨ (("frog" : String)) = "slice")
      ∧ getLastResponseBody wStateResp = Except.ok "jsonBody"
      ∧ wResolveConst (GoValue.vBool true) "root.x" "jsonBody"
          = Except.ok (GoValue.vBool true)
      ∧ wTmplId "zzz" wStateResp.cache = Except.ok "zzz")
    ∧ (TheJSONNodeShouldBe (wResolveConst (GoValue.vBool true)) wStateResp
          "root.x" "frog" = Except.error (Err.unknownType "frog")
      ∧ TheJSONNodeShouldNotBe (wResolveConst (GoValue.vBool true)) wStateResp
          "root.x" "frog" = Except.error (Err.unknownType "frog")
      ∧ ¬(Err.unknownType "frog" = Err.nodeShouldBeType "root.x" "frog")
      ∧ ¬(Err.unknownType "frog" = Err.nodeShouldNotBeType "root.x" "frog")
      ∧ TheJSONNodeShouldBeOfValue wTmplId (wResolveConst (GoValue.vBool true))
          wParseFloat wStateResp "root.x" "frog" "zzz" = Except.ok ()) :=
  ⟨⟨by decide, by decide, by decide, by decide⟩,
   unsupported_tag_handling (wResolveConst (GoValue.vBool true)) wTmplId
     wParseFloat wStateResp "root.x" "frog" "zzz" "jsonBody" "zzz"
     (GoValue.vBool true) (by decide) (by decide) (by decide) (by decide)⟩

/-! ## C6 -/

/-- Claim C6: `TheJSONNodeShouldBeSliceOfLength(expr, n)` succeeds exactly on
a slice of length `n`; a slice of any other length fails with the
wrong-length error carrying both lengths, and a non-slice value fails with
the distinct not-a-slice error. -/
theorem sliceOfLength_characterization
    (resolve : String → String → Except String GoValue)
    (st : State) (expr body : String) (v : GoValue) (n : Int) (len2 : Nat)
    (hbody : getLastResponseBody st = Except.ok body)
    (hres : resolve expr body = Except.ok v) :
    TheJSONNodeShouldBeSliceOfLength resolve st expr n =
      (match v with
       | GoValue.vSlice len =>
         if ¬((len : Int) = n) then
           Except.error (Err.sliceWrongLength expr len n)
         else Except.ok ()
       | _ => Except.error (Err.notSlice expr))
    ∧ isSuccess (TheJSONNodeShouldBeSliceOfLength resolve st expr n)
        = (match v with
           | GoValue.vSlice len => decide ((len : Int) = n)
           | _ => false)
    ∧ ¬(Err.notSlice expr = Err.sliceWrongLength expr len2 n) := by
  refine ⟨?_, ?_, by simp⟩
  · simp only [TheJSONNodeShouldBeSliceOfLength, hbody, hres]
    cases v <;> rfl
  · simp only [TheJSONNodeShouldBeSliceOfLength, hbody, hres]
    cases v <;> simp [isSuccess]
    rename_i len
    by_cases h : (len : Int) = n <;> simp [h, isSuccess]

/-- Witness for C6 on a slice of length 3 checked against 3. -/
theorem sliceOfLength_characterization_witness :
    (getLastResponseBody wStateResp = Except.ok "jsonBody"
      ∧ wResolveConst (GoValue.vSlice 3) "root.x" "jsonBody"
          = Except.ok (GoValue.vSlice 3))
    ∧ (TheJSONNodeShouldBeSliceOfLength (wResolveConst (GoValue.vSlice 3))
          wStateResp "root.x" 3 =
        (match GoValue.vSlice 3 with
         | GoValue.vSlice len =>
           if ¬((len : Int) = 3) then
             Except.error (Err.sliceWrongLength "root.x" len 3)
           else Except.ok ()
         | _ => Except.error (Err.notSlice "root.x"))
      ∧ isSuccess (TheJSONNodeShouldBeSliceOfLength
            (wResolveConst (GoValue.vSlice 3)) wStateResp "root.x" 3)
          = (match GoValue.vSlice 3 with
             | GoValue.vSlice len => decide ((len : Int) = 3)
             | _ => false)
      ∧ ¬(Err.notSlice "root.x" = Err.sliceWrongLength "root.x" 7 3)) :=
  ⟨⟨by decide, by decide⟩,
   sliceOfLength_characterization (wResolveConst (GoValue.vSlice 3))
     wStateResp "root.x" "jsonBody" (GoValue.vSlice 3) 3 7
     (by decide) (by decide)⟩

/-! ## C10 -/

/-- Claim C10: in `TheJSONNodeShouldBeOfValue` with dataType `"int"`, the
resolved `float64` node value is truncated toward zero before comparison:
with the expected string parsing to integer `n`, the assertion succeeds
exactly when `int(v) = n`, including non-integer node values such as `5.7`
against `"5"`. -/
theorem ofValue_int_truncates
    (tmplReplace : String → Cache → Except String String)
    (resolve : String → String → Except String GoValue)
    (parseFloat : String → Except String GoFloat)
    (st : State) (expr dataValue body replaced : String)
    (q : GoFloat) (n : Int)
    (htmpl : tmplReplace dataValue st.cache = Except.ok replaced)
    (hbody : getLastResponseBody st = Except.ok body)
    (hres : resolve expr body = Except.ok (GoValue.vFloat64 q))
    (hatoi : atoi replaced = Except.ok n) :
    isSuccess (TheJSONNodeShouldBeOfValue tmplReplace resolve parseFloat st
        expr "int" dataValue)
      = decide (goTrunc q = n) := by
  simp only [TheJSONNodeShouldBeOfValue, htmpl, hbody, hres, hatoi]
  by_cases h : goTrunc q = n <;> simp [h, isSuccess]

/-- Witness for C10: node value `5.7` against expected string `"5"`. -/
theorem ofValue_int_truncates_witness :
    (wTmplId "5" wStateResp.cache = Except.ok "5"
      ∧ getLastResponseBody wStateResp = Except.ok "jsonBody"
      ∧ wResolveConst (GoValue.vFloat64 { num := 57, den := 10 }) "root.x" "jsonBody"
          = Except.ok (GoValue.vFloat64 { num := 57, den := 10 })
      ∧ atoi "5" = Except.ok 5)
    ∧ isSuccess (TheJSONNodeShouldBeOfValue wTmplId
          (wResolveConst (GoValue.vFloat64 { num := 57, den := 10 }))
          wParseFloat wStateResp "root.x" "int" "5")
        = decide (goTrunc { num := 57, den := 10 } = (5 : Int)) :=
  ⟨⟨by decide, by decide, by decide, by decide⟩,
   ofValue_int_truncates wTmplId
     (wResolveConst (GoValue.vFloat64 { num := 57, den := 10 }))
     wParseFloat wStateResp "root.x" "5" "jsonBody" "5"
     { num := 57, den := 10 } 5
     (by decide) (by decide) (by decide) (by decide)⟩

/-! ## C3 -/

theorem getPreparedRequest_save_other (c : Cache) (k : String) (v : CacheValue)
    (k2 : String) (h : ¬(k2 = k)) :
    getPreparedRequest (cacheSave c k v) k2 = getPreparedRequest c k2 := by
  simp [getPreparedRequest, cacheGetSaved, cacheLookup_save_other c k v k2 h]

/-- Claim C3: in `ISendRequest`, the request timestamp is written to the
cache before dispatch (its stamp is the clock value preceding the logged
dispatch instant); when the transport fails, the operation returns the
wrapped transport error, the response timestamp and the last-response slot
are not written, and the prepared request stored under the cache key is
unchanged, so the same send can be retried with the same key. -/
theorem sendRequest_transport_failure
    (transport : HttpRequest → Except String HttpResponse)
    (st : State) (cacheKey : String) (req : HttpRequest) (e : String)
    (hkey : ¬(cacheKey = lastHTTPRequestTimestamp))
    (hreq : getPreparedRequest st.cache cacheKey = Except.ok req)
    (htrans : transport req = Except.error e) :
    (ISendRequest transport st cacheKey).2 = Except.error (Err.httpReqRes e)
    ∧ cacheLookup (ISendRequest transport st cacheKey).1.cache
        lastHTTPRequestTimestamp = some (CacheValue.timeVal st.clock)
    ∧ (ISendRequest transport st cacheKey).1.transportLog
        = st.transportLog ++ [(st.clock + 1, req)]
    ∧ cacheLookup (ISendRequest transport st cacheKey).1.cache
        lastHTTPResponseTimestamp
        = cacheLookup st.cache lastHTTPResponseTimestamp
    ∧ cacheLookup (ISendRequest transport st cacheKey).1.cache
        lastHTTPResponseCacheKey
        = cacheLookup st.cache lastHTTPResponseCacheKey
    ∧ getPreparedRequest (ISendRequest transport st cacheKey).1.cache cacheKey
        = Except.ok req := by
  have d1 : ¬(lastHTTPResponseTimestamp = lastHTTPRequestTimestamp) := by decide
  have d2 : ¬(lastHTTPResponseCacheKey = lastHTTPRequestTimestamp) := by decide
  simp only [ISendRequest, hreq, htrans]
  refine ⟨trivial, cacheLookup_save_self _ _ _, trivial,
    cacheLookup_save_other _ _ _ _ d1, cacheLookup_save_other _ _ _ _ d2, ?_⟩
  rw [getPreparedRequest_save_other _ _ _ _ hkey]
  exact hreq

/-- Witness for C3: a concrete prepared request sent over a failing
transport. -/
theorem sendRequest_transport_failure_witness :
    (¬(("myReq" : String) = lastHTTPRequestTimestamp)
      ∧ getPreparedRequest wStateReq.cache "myReq" = Except.ok wReq
      ∧ wFailTransport wReq = Except.error "connection refused")
    ∧ ((ISendRequest wFailTransport wStateReq "myReq").2
          = Except.error (Err.httpReqRes "connection refused")
      ∧ cacheLookup (ISendRequest wFailTransport wStateReq "myReq").1.cache
          lastHTTPRequestTimestamp = some (CacheValue.timeVal wStateReq.clock)
      ∧ (ISendRequest wFailTransport wStateReq "myReq").1.transportLog
          = wStateReq.transportLog ++ [(wStateReq.clock + 1, wReq)]
      ∧ cacheLookup (ISendRequest wFailTransport wStateReq "myReq").1.cache
          lastHTTPResponseTimestamp
          = cacheLookup wStateReq.cache lastHTTPResponseTimestamp
      ∧ cacheLookup (ISendRequest wFailTransport wStateReq "myReq").1.cache
          lastHTTPResponseCacheKey
          = cacheLookup wStateReq.cache lastHTTPResponseCacheKey
      ∧ getPreparedRequest
          (ISendRequest wFailTransport wStateReq "myReq").1.cache "myReq"
          = Except.ok wReq) :=
  ⟨⟨by decide, by decide, by decide⟩,
   sendRequest_transport_failure wFailTransport wStateReq "myReq" wReq
     "connection refused" (by decide) (by decide) (by decide)⟩

/-! ## C4 -/

/-- Claim C4 is false as stated: after a send attempt over a failing
transport (an occurred send per the lifecycle), the request-timestamp
cache entry is present while the response-timestamp entry is absent, so
the two are not always written as a pair. -/
theorem timestamps_pair_counterexample :
    (cacheLookup (ISendRequest wFailTransport wStateReq "myReq").1.cache
        lastHTTPRequestTimestamp).isSome = true
    ∧ cacheLookup (ISendRequest wFailTransport wStateReq "myReq").1.cache
        lastHTTPResponseTimestamp = none := by decide

/-- Claim C4 (amended): on both send paths, a send that returns success
writes the request timestamp and the response timestamp as a pair; a send
whose transport fails writes only the request timestamp. -/
theorem timestamps_pair_on_success
    (transport : HttpRequest → Except String HttpResponse)
    (st : State) (cacheKey : String)
    (tmplReplace : String → Cache → Except String String)
    (deserialize : String → Except String BodyHeaders)
    (jsonMarshal : GoValue → Except String String)
    (mkRequest : String → String → String → Except String HttpRequest)
    (transport2 : HttpRequest → Except String HttpResponse)
    (st2 : State) (method urlTemplate bodyTemplate : String)
    (hok : (ISendRequest transport st cacheKey).2 = Except.ok ())
    (hok2 : (ISendRequestToWithBodyAndHeaders tmplReplace deserialize
        jsonMarshal mkRequest transport2 st2 method urlTemplate
        bodyTemplate).2 = Except.ok ()) :
    ((cacheLookup (ISendRequest transport st cacheKey).1.cache
        lastHTTPRequestTimestamp).isSome = true
      ∧ (cacheLookup (ISendRequest transport st cacheKey).1.cache
        lastHTTPResponseTimestamp).isSome = true)
    ∧ ((cacheLookup (ISendRequestToWithBodyAndHeaders tmplReplace deserialize
          jsonMarshal mkRequest transport2 st2 method urlTemplate
          bodyTemplate).1.cache lastHTTPRequestTimestamp).isSome = true
      ∧ (cacheLookup (ISendRequestToWithBodyAndHeaders tmplReplace deserialize
          jsonMarshal mkRequest transport2 st2 method urlTemplate
          bodyTemplate).1.cache lastHTTPResponseTimestamp).isSome = true) := by
  have d1 : ¬(lastHTTPRequestTimestamp = lastHTTPResponseTimestamp) := by decide
  have d2 : ¬(lastHTTPRequestTimestamp = lastHTTPResponseCacheKey) := by decide
  have d3 : ¬(lastHTTPResponseTimestamp = lastHTTPResponseCacheKey) := by decide
  constructor
  · cases h1 : getPreparedRequest st.cache cacheKey with
    | error e => simp [ISendRequest, h1] at hok
    | ok req =>
      cases h2 : transport req with
      | error e => simp [ISendRequest, h1, h2] at hok
      | ok resp =>
        simp only [ISendRequest, h1, h2]
        constructor
        · rw [cacheLookup_save_other _ _ _ _ d2,
            cacheLookup_save_other _ _ _ _ d1, cacheLookup_save_self]
          rfl
        · rw [cacheLookup_save_other _ _ _ _ d3, cacheLookup_save_self]
          rfl
  · cases h1 : tmplReplace bodyTemplate st2.cache with
    | error e => simp [ISendRequestToWithBodyAndHeaders, h1] at hok2
    | ok input =>
    cases h2 : tmplReplace urlTemplate st2.cache with
    | error e => simp [ISendRequestToWithBodyAndHeaders, h1, h2] at hok2
    | ok url =>
    cases h3 : deserialize input with
    | error e => simp [ISendRequestToWithBodyAndHeaders, h1, h2, h3] at hok2
    | ok bh =>
    cases h4 : jsonMarshal bh.body with
    | error e => simp [ISendRequestToWithBodyAndHeaders, h1, h2, h3, h4] at hok2
    | ok reqBody =>
    cases h5 : mkRequest method url reqBody with
    | error e =>
      simp [ISendRequestToWithBodyAndHeaders, h1, h2, h3, h4, h5] at hok2
    | ok req0 =>
    cases h6 : transport2 { req0 with
        headers := bh.headers.foldl (fun h p => headerSet h p.1 p.2)
          req0.headers } with
    | error e =>
      simp [ISendRequestToWithBodyAndHeaders, h1, h2, h3, h4, h5, h6] at hok2
    | ok resp =>
      simp only [ISendRequestToWithBodyAndHeaders, h1, h2, h3, h4, h5, h6]
      constructor
      · rw [cacheLookup_save_other _ _ _ _ d2,
          cacheLookup_save_other _ _ _ _ d1, cacheLookup_save_self]
        rfl
      · rw [cacheLookup_save_other _ _ _ _ d3, cacheLookup_save_self]
        rfl

/-- Witness for the amended C4: both send paths run to success on concrete
inputs and leave both timestamp entries present. -/
theorem timestamps_pair_on_success_witness :
    ((ISendRequest wOkTransport wStateReq "myReq").2 = Except.ok ()
      ∧ (ISendRequestToWithBodyAndHeaders wTmplId wDeserialize wMarshal
          wMkRequest wOkTransport wStateResp "POST" "http://example.com"
          "jsonBody").2 = Except.ok ())
    ∧ (((cacheLookup (ISendRequest wOkTransport wStateReq "myReq").1.cache
          lastHTTPRequestTimestamp).isSome = true
        ∧ (cacheLookup (ISendRequest wOkTransport wStateReq "myReq").1.cache
          lastHTTPResponseTimestamp).isSome = true)
      ∧ ((cacheLookup (ISendRequestToWithBodyAndHeaders wTmplId wDeserialize
            wMarshal wMkRequest wOkTransport wStateResp "POST"
            "http://example.com" "jsonBody").1.cache
          lastHTTPRequestTimestamp).isSome = true
        ∧ (cacheLookup (ISendRequestToWithBodyAndHeaders wTmplId wDeserialize
            wMarshal wMkRequest wOkTransport wStateResp "POST"
            "http://example.com" "jsonBody").1.cache
          lastHTTPResponseTimestamp).isSome = true)) :=
  ⟨⟨by decide, by decide⟩,
   timestamps_pair_on_success wOkTransport wStateReq "myReq" wTmplId
     wDeserialize wMarshal wMkRequest wOkTransport wStateResp "POST"
     "http://example.com" "jsonBody" (by decide) (by decide)⟩

/-! ## C8 -/

/-- Claim C8: `ISetFollowingBodyForPreparedRequest` stores back, under the
same key, the stored request with its body wholly replaced and everything
else (headers included) unchanged; `ISetFollowingHeadersForPreparedRequest`
stores back the stored request with the provided entries `Header.Set` one
by one (so per name the last provided value wins and names not mentioned
keep their previous value) and the body unchanged. -/
theorem preparedRequest_mutation_frame
    (tmplReplace : String → Cache → Except String String)
    (deserializeHeaders : String → Except String (List (String × String)))
    (st : State) (cacheKey bodyTemplate bodyStr : String) (req : HttpRequest)
    (st2 : State) (cacheKey2 headersTemplate hs : String)
    (m : List (String × String)) (req2 : HttpRequest) (nm : String)
    (htmplB : tmplReplace bodyTemplate st.cache = Except.ok bodyStr)
    (hreq : getPreparedRequest st.cache cacheKey = Except.ok req)
    (htmplH : tmplReplace headersTemplate st2.cache = Except.ok hs)
    (hdeser : deserializeHeaders hs = Except.ok m)
    (hreq2 : getPreparedRequest st2.cache cacheKey2 = Except.ok req2) :
    ISetFollowingBodyForPreparedRequest tmplReplace st cacheKey bodyTemplate
      = ({ st with cache := (cacheSave st.cache cacheKey
            (CacheValue.request { req with body := some bodyStr })) },
         Except.ok ())
    ∧ ISetFollowingHeadersForPreparedRequest tmplReplace deserializeHeaders
        st2 cacheKey2 headersTemplate
      = ({ st2 with cache := (cacheSave st2.cache cacheKey2
            (CacheValue.request { req2 with
              headers := (m.foldl (fun h p => headerSet h p.1 p.2)
                req2.headers) })) },
         Except.ok ())
    ∧ headerGet (m.foldl (fun h p => headerSet h p.1 p.2) req2.headers) nm
      = m.foldl (fun acc p => if p.1 = nm then p.2 else acc)
          (headerGet req2.headers nm) := by
  refine ⟨?_, ?_, headerGet_foldl_headerSet m req2.headers nm⟩
  · simp only [ISetFollowingBodyForPreparedRequest, htmplB, hreq]
  · simp only [ISetFollowingHeadersForPreparedRequest, htmplH, hdeser, hreq2]

/-- Witness for C8: body replacement and a two-entry header merge over a
request that already carries headers `A` and `B`. -/
theorem preparedRequest_mutation_frame_witness :
    (wTmplId "newBody" wStateReq.cache = Except.ok "newBody"
      ∧ getPreparedRequest wStateReq.cache "myReq" = Except.ok wReq
      ∧ wTmplId "hdrs" wStateReq.cache = Except.ok "hdrs"
      ∧ (fun (_ : String) =>
          Except.ok (ε := String) [("A", "9"), ("C", "3")]) "hdrs"
          = Except.ok [("A", "9"), ("C", "3")]
      ∧ getPreparedRequest wStateReq.cache "myReq" = Except.ok wReq)
    ∧ (ISetFollowingBodyForPreparedRequest wTmplId wStateReq "myReq" "newBody"
        = ({ wStateReq with cache := (cacheSave wStateReq.cache "myReq"
              (CacheValue.request { wReq with body := some "newBody" })) },
           Except.ok ())
      ∧ ISetFollowingHeadersForPreparedRequest wTmplId
          (fun (_ : String) =>
            Except.ok (ε := String) [("A", "9"), ("C", "3")])
          wStateReq "myReq" "hdrs"
        = ({ wStateReq with cache := (cacheSave wStateReq.cache "myReq"
              (CacheValue.request { wReq with
                headers := (List.foldl (fun h p => headerSet h p.1 p.2)
                  wReq.headers [("A", "9"), ("C", "3")]) })) },
           Except.ok ())
      ∧ headerGet (List.foldl (fun h p => headerSet h p.1 p.2)
            wReq.headers [("A", "9"), ("C", "3")]) "A"
        = List.foldl (fun acc p => if p.1 = "A" then p.2 else acc)
            (headerGet wReq.headers "A") [("A", "9"), ("C", "3")]) :=
  ⟨⟨by decide, by decide, by decide, by decide, by decide⟩,
   preparedRequest_mutation_frame wTmplId
     (fun (_ : String) => Except.ok (ε := String) [("A", "9"), ("C", "3")])
     wStateReq "myReq" "newBody" "newBody" wReq
     wStateReq "myReq" "hdrs" "hdrs" [("A", "9"), ("C", "3")] wReq "A"
     (by decide) (by decide) (by decide) (by decide) (by decide)⟩

/-! ## C9 -/

/-- Claim C9: when `getPreparedRequest` fails — which happens with the
`ErrGdutils`-wrapped cache-miss error on an absent key and with the
`ErrPreservedData` data-integrity error on a non-request value — each of
the three prepared-request operations returns that error with the state
(cache, clock and dispatch log) entirely unchanged: no send and no
mutation is performed. -/
theorem preparedRequest_cache_errors
    (transport : HttpRequest → Except String HttpResponse)
    (tmplReplace : String → Cache → Except String String)
    (deserializeHeaders : String → Except String (List (String × String)))
    (st : State) (cacheKey : String) (e : Err)
    (headersTemplate bodyTemplate hs bs : String) (m : List (String × String))
    (st2 : State) (key2 : String)
    (st3 : State) (key3 : String) (v3 : CacheValue)
    (hfail : getPreparedRequest st.cache cacheKey = Except.error e)
    (htmplH : tmplReplace headersTemplate st.cache = Except.ok hs)
    (hdeser : deserializeHeaders hs = Except.ok m)
    (htmplB : tmplReplace bodyTemplate st.cache = Except.ok bs)
    (hmiss : cacheLookup st2.cache key2 = none)
    (hsome : cacheLookup st3.cache key3 = some v3)
    (hnotreq : isRequestValue v3 = false) :
    ISendRequest transport st cacheKey = (st, Except.error e)
    ∧ ISetFollowingHeadersForPreparedRequest tmplReplace deserializeHeaders
        st cacheKey headersTemplate = (st, Except.error e)
    ∧ ISetFollowingBodyForPreparedRequest tmplReplace st cacheKey bodyTemplate
        = (st, Except.error e)
    ∧ getPreparedRequest st2.cache key2
        = Except.error (Err.gdutilsCache ("could not find key " ++ key2))
    ∧ getPreparedRequest st3.cache key3
        = Except.error (Err.preservedData key3) := by
  refine ⟨?_, ?_, ?_, ?_, ?_⟩
  · simp only [ISendRequest, hfail]
  · simp only [ISetFollowingHeadersForPreparedRequest, htmplH, hdeser, hfail]
  · simp only [ISetFollowingBodyForPreparedRequest, htmplB, hfail]
  · simp [getPreparedRequest, cacheGetSaved, hmiss]
  · simp only [getPreparedRequest, cacheGetSaved, hsome]
    cases v3 <;> simp_all [isRequestValue]

/-- Witness for C9: a missing key and a string-valued key. -/
theorem preparedRequest_cache_errors_witness :
    (getPreparedRequest wStateResp.cache "nope"
        = Except.error (Err.gdutilsCache ("could not find key " ++ "nope"))
      ∧ wTmplId "hdrs" wStateResp.cache = Except.ok "hdrs"
      ∧ (fun (_ : String) => Except.ok (ε := String) ([] : List (String × String)))
          "hdrs" = Except.ok []
      ∧ wTmplId "body" wStateResp.cache = Except.ok "body"
      ∧ cacheLookup wStateResp.cache "nope" = none
      ∧ cacheLookup [("k", CacheValue.str "x")] "k"
          = some (CacheValue.str "x")
      ∧ isRequestValue (CacheValue.str "x") = false)
    ∧ (ISendRequest wFailTransport wStateResp "nope"
        = (wStateResp, Except.error
            (Err.gdutilsCache ("could not find key " ++ "nope")))
      ∧ ISetFollowingHeadersForPreparedRequest wTmplId
          (fun (_ : String) => Except.ok (ε := String) ([] : List (String × String)))
          wStateResp "nope" "hdrs"
        = (wStateResp, Except.error
            (Err.gdutilsCache ("could not find key " ++ "nope")))
      ∧ ISetFollowingBodyForPreparedRequest wTmplId wStateResp "nope" "body"
        = (wStateResp, Except.error
            (Err.gdutilsCache ("could not find key " ++ "nope")))
      ∧ getPreparedRequest wStateResp.cache "nope"
        = Except.error (Err.gdutilsCache ("could not find key " ++ "nope"))
      ∧ getPreparedRequest
          ({ cache := [("k", CacheValue.str "x")], clock := 0,
             transportLog := [] } : State).cache "k"
        = Except.error (Err.preservedData "k")) :=
  ⟨⟨by decide, by decide, by decide, by decide, by decide, by decide,
    by decide⟩,
   preparedRequest_cache_errors wFailTransport wTmplId
     (fun (_ : String) => Except.ok (ε := String) ([] : List (String × String)))
     wStateResp "nope" (Err.gdutilsCache ("could not find key " ++ "nope"))
     "hdrs" "body" "hdrs" "body" []
     wStateResp "nope"
     { cache := [("k", CacheValue.str "x")], clock := 0, transportLog := [] }
     "k" (CacheValue.str "x")
     (by decide) (by decide) (by decide) (by decide) (by decide) (by decide)
     (by decide)⟩

/-! ## C7 -/

/-- Claim C7: `TheResponseShouldHaveHeaderOfValue` fails with the error
naming the header when both the actual header value and the substituted
expected value are empty; it succeeds exactly when the actual value equals
the non-empty expected value (so a present-but-non-empty header checked
against an empty expectation fails); and its outcome depends on the
response only through `Header.Get`, which returns the empty string for
both an absent header and a present-but-empty one, making the two
indistinguishable. -/
theorem headerOfValue_characterization
    (tmplReplace : String → Cache → Except String String)
    (st : State) (name valueTemplate : String)
    (resp : HttpResponse) (value : String)
    (st2 : State) (resp2 : HttpResponse)
    (hresp : getLastResponse st = Except.ok resp)
    (htmpl : tmplReplace valueTemplate st.cache = Except.ok value)
    (hresp2 : getLastResponse st2 = Except.ok resp2)
    (htmpl2 : tmplReplace valueTemplate st2.cache = Except.ok value)
    (hsame : headerGet resp2.headers name = headerGet resp.headers name) :
    TheResponseShouldHaveHeaderOfValue tmplReplace st name valueTemplate
      = (if headerGet resp.headers name = "" ∧ value = "" then
           Except.error (Err.headerNotFound name)
         else if headerGet resp.headers name = value then Except.ok ()
         else Except.error (Err.headerWrongValue name value
                (headerGet resp.headers name)))
    ∧ isSuccess (TheResponseShouldHaveHeaderOfValue tmplReplace st name
          valueTemplate)
        = decide (headerGet resp.headers name = value ∧ ¬(value = ""))
    ∧ TheResponseShouldHaveHeaderOfValue tmplReplace st2 name valueTemplate
        = TheResponseShouldHaveHeaderOfValue tmplReplace st name
            valueTemplate := by
  refine ⟨?_, ?_, ?_⟩
  · simp only [TheResponseShouldHaveHeaderOfValue, hresp, htmpl]
  · simp only [TheResponseShouldHaveHeaderOfValue, hresp, htmpl]
    by_cases h1 : headerGet resp.headers name = "" <;>
      by_cases h2 : value = "" <;>
      by_cases h3 : headerGet resp.headers name = value <;>
      simp_all [isSuccess]
  · simp only [TheResponseShouldHaveHeaderOfValue, hresp, htmpl, hresp2,
      htmpl2, hsame]

/-- Witness for C7: header `X-Test: abc` checked against expected
`"abc"`. -/
theorem headerOfValue_characterization_witness :
    (getLastResponse wStateResp = Except.ok wResp
      ∧ wTmplId "abc" wStateResp.cache = Except.ok "abc"
      ∧ getLastResponse wStateResp = Except.ok wResp
      ∧ wTmplId "abc" wStateResp.cache = Except.ok "abc"
      ∧ headerGet wResp.headers "X-Test" = headerGet wResp.headers "X-Test")
    ∧ (TheResponseShouldHaveHeaderOfValue wTmplId wStateResp "X-Test" "abc"
        = (if headerGet wResp.headers "X-Test" = "" ∧ ("abc" : String) = ""
           then Except.error (Err.headerNotFound "X-Test")
           else if headerGet wResp.headers "X-Test" = "abc" then Except.ok ()
           else Except.error (Err.headerWrongValue "X-Test" "abc"
                  (headerGet wResp.headers "X-Test")))
      ∧ isSuccess (TheResponseShouldHaveHeaderOfValue wTmplId wStateResp
            "X-Test" "abc")
          = decide (headerGet wResp.headers "X-Test" = "abc"
              ∧ ¬(("abc" : String) = ""))
      ∧ TheResponseShouldHaveHeaderOfValue wTmplId wStateResp "X-Test" "abc"
          = TheResponseShouldHaveHeaderOfValue wTmplId wStateResp "X-Test"
              "abc") :=
  ⟨⟨by decide, by decide, by decide, by decide, by decide⟩,
   headerOfValue_characterization wTmplId wStateResp "X-Test" "abc" wResp
     "abc" wStateResp wResp (by decide) (by decide) (by decide) (by decide)
     (by decide)⟩

end Gdutils
